import Mathlib

/-!
Verification development for the design-database search engine in
`src/mastra/tools/design/search.py` (class `DesignSearchEngine`).

The engine loads per-category CSV records through a loader adapter, builds a
lazily-cached BM25 index per category, ranks records against whitespace-lowercase
tokenized queries, and composes a design-system recommendation document.

Modelling conventions:
* Python `float` arithmetic is modelled over `ℝ`.
* A CSV row (`csv.DictReader` row) is an association list `String × String`.
* The filesystem / loader adapter is a function from file name to a
  `FileOutcome` (missing file, readable rows, or an I/O failure); `load_domain`
  mirrors the source: an existence check returning `[]` for a missing file and a
  raised `DataSourceUnavailable` (the only loader error) for an unreadable one.
* The engine's mutable caches `self.indices` / `self.documents` are threaded as
  an explicit `EngineState`; both dictionaries are written together and only for
  a non-empty record list, so one map suffices.
* `search` additionally returns the list of domains for which the loader adapter
  was invoked during the call (its invocation log), so that claims about re-use
  of cached outcomes are statable.
* Python's `list.sort(key=..., reverse=True)` is a stable descending sort; it is
  modelled by a stable insertion sort, which computes the same list.
* `results[:max_results]` follows Python slice semantics, including negative
  stops (`pySlice`).
-/

namespace DesignSearch

/-! ### Tokenizer (search.py lines 67-68, 76)

String splitting is implemented structurally over the character list (rather
than through `String.split`, which recurses on byte positions), so that
concrete instances reduce inside the kernel; the semantics is that of Python's
`str.split()` with no separator: split on runs of whitespace, no empty words. -/

/-- Accumulate the words of a character stream: `acc` holds the current word,
reversed. -/
def wordsAux : List Char → List Char → List String
  | [], acc => if acc.isEmpty then [] else [⟨acc.reverse⟩]
  | c :: cs, acc =>
    if c.isWhitespace then
      if acc.isEmpty then wordsAux cs [] else ⟨acc.reverse⟩ :: wordsAux cs []
    else wordsAux cs (c :: acc)

/-- `text.lower().split()`: lowercase every character, then split on whitespace
runs, dropping empty words. -/
def tokenize (s : String) : List String :=
  wordsAux (s.data.map Char.toLower) []

/-- A CSV row: ordered field-name/value pairs (`csv.DictReader` row). -/
abbrev Rec := List (String × String)

/-- `" ".join(vs)`. -/
def joinSpace : List String → String
  | [] => ""
  | [v] => v
  | v :: vs => v ++ " " ++ joinSpace vs

/-- `" ".join([str(v) for v in doc.values() if v])` (line 67). -/
def recordText (r : Rec) : String :=
  joinSpace ((r.map Prod.snd).filter (fun v => v ≠ ""))

/-- `v.split(';')` over the characters of `v`: split at every separator
occurrence, keeping empty pieces (Python `str.split` with an explicit
separator). `acc` holds the current piece, reversed. -/
def splitSemiAux : List Char → List Char → List String
  | [], acc => [⟨acc.reverse⟩]
  | c :: cs, acc =>
    if c = ';' then (⟨acc.reverse⟩ : String) :: splitSemiAux cs []
    else splitSemiAux cs (c :: acc)

/-- `v.split(';')` (line 147). -/
def splitSemi (v : String) : List String := splitSemiAux v.data []

/-! ### BM25 scoring

Modelled from the spec: the scoring function itself lives in the external
`rank_bm25.BM25Okapi` dependency, whose source is not part of this repository;
§4.2 of the spec fixes the model: for each query token `t` present in the
vocabulary accumulate `IDF(t) · TF(t,d)·(k1+1) / (TF(t,d) + k1·(1 − b + b·|d|/avgdl))`
with `k1 = 1.5`, `b = 0.75` and the "+1" smoothed
`IDF(t) = log((N − df(t) + 0.5)/(df(t) + 0.5) + 1)`; a query token absent from
the vocabulary contributes `0`. -/

noncomputable section

namespace BM25

/-- Tuning constant `k1 = 1.5` (spec §4.2). -/
def k1 : ℝ := 1.5

/-- Tuning constant `b = 0.75` (spec §4.2). -/
def b : ℝ := 0.75

end BM25

/-- A built index: the tokenized corpus, in record load order (line 71). -/
structure BM25Index where
  corpus : List (List String)

/-- Document count `N`. -/
def BM25Index.N (ix : BM25Index) : ℕ := ix.corpus.length

/-- Document frequency of a term: number of documents containing it. -/
def BM25Index.df (ix : BM25Index) (t : String) : ℕ :=
  (ix.corpus.filter (fun dtoks => decide (t ∈ dtoks))).length

/-- Average document length (token count). -/
def BM25Index.avgdl (ix : BM25Index) : ℝ :=
  ((ix.corpus.map List.length).sum : ℝ) / (ix.N : ℝ)

/-- Modelled from the spec (§4.2): one query token's contribution to one
document's score; `0` for a token absent from the category vocabulary. -/
def BM25Index.termScore (ix : BM25Index) (t : String) (d : List String) : ℝ :=
  if ix.df t = 0 then 0
  else
    Real.log (((ix.N : ℝ) - (ix.df t : ℝ) + 0.5) / ((ix.df t : ℝ) + 0.5) + 1) *
        ((d.count t : ℝ) * (BM25.k1 + 1)) /
      ((d.count t : ℝ) + BM25.k1 * (1 - BM25.b + BM25.b * (d.length : ℝ) / ix.avgdl))

/-- Modelled from the spec (§4.2): BM25 score of one document for a token query,
summed over the query tokens. -/
def BM25Index.score (ix : BM25Index) (q : List String) (d : List String) : ℝ :=
  (q.map (fun t => ix.termScore t d)).sum

/-- `get_scores`: one score per document, in load order (line 89; spec §4.2). -/
def BM25Index.getScores (ix : BM25Index) (q : List String) : List ℝ :=
  ix.corpus.map (fun d => ix.score q d)

/-! ### Loader adapter and engine state (lines 28-55) -/

/-- Outcome of looking up one file in the data directory. -/
inductive FileOutcome
  | missing
  | rows (rs : List Rec)
  | ioError

/-- The data directory: file name → outcome. -/
abbrev DataDir := String → FileOutcome

/-- Loader failure taxonomy (spec §7): the single loader I/O error. -/
inductive LoadError
  | dataSourceUnavailable
deriving DecidableEq

/-- `self.domains` (lines 30-38): category → CSV file name, in insertion order. -/
def domainsTable : List (String × String) :=
  [("product", "products.csv"), ("style", "styles.csv"), ("color", "colors.csv"),
   ("typography", "typography.csv"), ("landing", "landing-pages.csv"),
   ("chart", "charts.csv"), ("ux", "ux-guidelines.csv")]

/-- The seven fixed categories, in `self.domains` iteration order. -/
def fixedDomains : List String := domainsTable.map Prod.fst

/-- `self.domains.get(domain, f"{domain}.csv")` (line 44). -/
def filenameFor (d : String) : String :=
  match domainsTable.lookup d with
  | some f => f
  | none => d ++ ".csv"

/-- `load_domain` (lines 42-55): `[]` when the file does not exist, its rows when
readable, a raised `DataSourceUnavailable` when unreadable. -/
def load_domain (fs : DataDir) (d : String) : Except LoadError (List Rec) :=
  match fs (filenameFor d) with
  | .missing => .ok []
  | .rows rs => .ok rs
  | .ioError => .error .dataSourceUnavailable

/-- The engine's cache: `built d = some docs` iff `d ∈ self.indices` (and then
`self.documents[d] = docs`); both are assigned together at line 71-72. -/
structure EngineState where
  built : String → Option (List Rec)

/-- A fresh engine: empty `self.indices` / `self.documents` (lines 39-40). -/
def initState : EngineState := ⟨fun _ => none⟩

/-- Cache update performed by `build_index` (lines 71-72). -/
def setBuilt (st : EngineState) (d : String) (docs : List Rec) : EngineState :=
  ⟨fun x => if x = d then some docs else st.built x⟩

/-! ### Search (lines 57-102) -/

/-- `SearchResult` (lines 17-23). `content = json.dumps(metadata)` is a pure
function of `metadata`; serialization is outside the core (spec §1), so the
content field carries the record itself. -/
structure SearchResult where
  domain : String
  content : Rec
  metadata : Rec
  score : ℝ

/-- The tokenized corpus built by `build_index` from a domain's records
(lines 63-71). -/
def indexFor (docs : List Rec) : BM25Index :=
  ⟨docs.map (fun r => tokenize (recordText r))⟩

/-- The positive-score hits of one domain, in record load order
(lines 89-98): enumerate the per-document scores and keep `score > 0`. -/
def mkHits (d : String) (docs : List Rec) (qtoks : List String) : List SearchResult :=
  (docs.zip ((indexFor docs).getScores qtoks)).filterMap fun p =>
    if 0 < p.2 then some ⟨d, p.1, p.1, p.2⟩ else none

/-- Lines 86-98 for one domain: skip when unbuilt or when the cached record
list is empty (`if d not in self.indices or not self.documents[d]: continue`). -/
def domainHits (st : EngineState) (d : String) (qtoks : List String) : List SearchResult :=
  match st.built d with
  | none => []
  | some docs => if docs.isEmpty then [] else mkHits d docs qtoks

/-- The `for d in domains_to_search` loop of `search` (lines 82-98), with the
lazy `build_index` call (lines 57-72) inlined at the `d not in self.indices`
check. Returns the accumulated hit pool (or the propagated loader error), the
engine state after the loop, and the log of domains for which `load_domain`
was invoked. -/
def searchLoop (fs : DataDir) (qtoks : List String) :
    List String → EngineState →
      Except LoadError (List SearchResult) × EngineState × List String
  | [], st => (.ok [], st, [])
  | d :: rest, st =>
    match st.built d with
    | some _ =>
      let out := searchLoop fs qtoks rest st
      (out.1.map (fun more => domainHits st d qtoks ++ more), out.2.1, out.2.2)
    | none =>
      match load_domain fs d with
      | .error e => (.error e, st, [d])
      | .ok docs =>
        let st1 := if docs.isEmpty then st else setBuilt st d docs
        let out := searchLoop fs qtoks rest st1
        (out.1.map (fun more => domainHits st1 d qtoks ++ more), out.2.1,
          d :: out.2.2)

/-- `domains_to_search = [domain] if domain else self.domains.keys()` (line 80):
Python truthiness — `None` and the empty string are both falsy, so each selects
all seven fixed categories; only a non-empty domain string filters. -/
def searchDomains : Option String → List String
  | some d => if d = "" then fixedDomains else [d]
  | none => fixedDomains

/-- Stable insertion (descending by score): `x`, which precedes the already
sorted suffix in the original list, goes before every element whose score does
not exceed its own. -/
def insertByScore (x : SearchResult) : List SearchResult → List SearchResult
  | [] => [x]
  | y :: ys => if y.score ≤ x.score then x :: y :: ys else y :: insertByScore x ys

/-- `results.sort(key=lambda x: x.score, reverse=True)` (line 101): a stable
descending sort by score. -/
def sortByScoreDesc : List SearchResult → List SearchResult
  | [] => []
  | x :: xs => insertByScore x (sortByScoreDesc xs)

/-- Python's `xs[:m]`, including negative stops: `m < 0` keeps
`max(0, len(xs) + m)` leading elements. -/
def pySlice {α : Type} (m : ℤ) (xs : List α) : List α :=
  if 0 ≤ m then xs.take m.toNat else xs.take (xs.length - (-m).toNat)

/-- `search` (lines 74-102): tokenize the query, accumulate positive-score hits
over the target domains, sort descending by score, truncate to `max_results`. -/
def search (fs : DataDir) (st : EngineState) (query : String)
    (domain : Option String) (maxResults : ℤ) :
    Except LoadError (List SearchResult) × EngineState × List String :=
  let out := searchLoop fs (tokenize query) (searchDomains domain) st
  (out.1.map (fun pool => pySlice maxResults (sortByScoreDesc pool)), out.2.1,
    out.2.2)

/-! ### Recommendation composer (lines 104-164) -/

/-- `result.metadata.get(k)` / `result.metadata[k]` on a row. -/
def lookupField (r : Rec) (k : String) : Option String := r.lookup k

/-- A checklist entry (lines 158-162). -/
structure ChecklistEntry where
  item : String
  rule : String
  category : String
deriving DecidableEq

/-- Python truthiness of `metadata.get(k)`: present and non-empty. -/
def truthy : Option String → Bool
  | none => false
  | some s => s != ""

/-- `results[0].metadata if results else {}` (lines 120-124). -/
def headMeta : List SearchResult → Rec
  | [] => []
  | r :: _ => r.metadata

/-- `[r.metadata for r in rs]`. -/
def metas (rs : List SearchResult) : List Rec := rs.map (·.metadata)

/-- The anti-pattern phrases accumulated by `_extract_anti_patterns`
(lines 145-148): for the top-2 product results whose metadata has an
`anti_patterns` key, split its value on `;`, in iteration order. -/
def antiPatternsRaw (product_results : List SearchResult) : List String :=
  ((product_results.take 2).filterMap
      (fun r => lookupField r.metadata "anti_patterns")).flatMap
    (fun v => splitSemi v)

/-- `_extract_anti_patterns` (lines 141-150). `list(set(...))` enumerates a hash
set whose iteration order is fixed only per process (hash randomization); the
enumeration is abstracted as `σ`, constrained by `IsSetOrder`. The
`style_results` parameter is accepted and unused, as in the source. -/
def extract_anti_patterns (σ : List String → List String)
    (product_results _style_results : List SearchResult) : List String :=
  (σ (antiPatternsRaw product_results)).take 5

/-- What Python guarantees of `list(set(l))`: a duplicate-free enumeration of
exactly the elements of `l`. -/
def IsSetOrder (σ : List String → List String) : Prop :=
  ∀ l, (σ l).Nodup ∧ ∀ x, x ∈ σ l ↔ x ∈ l

/-- `_generate_checklist` (lines 152-164): scan the top-10 ux results; a result
contributes iff both `guideline_name` and `rule` are truthy; `category`
defaults to `"general"` when the key is absent. -/
def generate_checklist (ux_results : List SearchResult) : List ChecklistEntry :=
  (ux_results.take 10).filterMap fun r =>
    if truthy (lookupField r.metadata "guideline_name") &&
        truthy (lookupField r.metadata "rule") then
      some ⟨(lookupField r.metadata "guideline_name").getD "",
            (lookupField r.metadata "rule").getD "",
            (lookupField r.metadata "category").getD "general"⟩
    else none

/-- The seven per-domain result lists computed by `design_system_generator`
(lines 107-113). -/
structure SearchBundle where
  product : List SearchResult
  style : List SearchResult
  color : List SearchResult
  typography : List SearchResult
  landing : List SearchResult
  chart : List SearchResult
  ux : List SearchResult

/-- One `self.search(query, domain=d, max_results=k)` call as seen by the
composer: the ranked results and the engine state after the call; a raised
loader error propagates. -/
def searchE (fs : DataDir) (query : String) (d : String) (k : ℤ)
    (st : EngineState) : Except LoadError (List SearchResult × EngineState) :=
  match search fs st query (some d) k with
  | (.error e, _, _) => .error e
  | (.ok rs, st', _) => .ok (rs, st')

/-- Lines 107-113: the seven searches, run in order on the shared engine
state; any raised loader error propagates. -/
def dsgCore (fs : DataDir) (st : EngineState) (query : String) :
    Except LoadError (SearchBundle × EngineState) :=
  (searchE fs query "product" 3 st).bind fun pr =>
  (searchE fs query "style" 3 pr.2).bind fun sr =>
  (searchE fs query "color" 3 sr.2).bind fun cr =>
  (searchE fs query "typography" 3 cr.2).bind fun tr =>
  (searchE fs query "landing" 3 tr.2).bind fun lr =>
  (searchE fs query "chart" 5 lr.2).bind fun hr =>
  (searchE fs query "ux" 5 hr.2).bind fun ur =>
  .ok (⟨pr.1, sr.1, cr.1, tr.1, lr.1, hr.1, ur.1⟩, ur.2)

/-- The output document of `design_system_generator` (lines 116-137), with the
nested `recommendations` / `alternatives` dictionaries flattened into fields. -/
structure DesignSystem where
  project_name : String
  query : String
  rec_product : Rec
  rec_style : Rec
  rec_color_palette : Rec
  rec_typography : Rec
  rec_landing_pattern : Rec
  rec_charts : List Rec
  rec_ux_guidelines : List Rec
  alt_products : List Rec
  alt_styles : List Rec
  alt_colors : List Rec
  alt_typography : List Rec
  alt_landing_patterns : List Rec
  anti_patterns : List String
  checklist : List ChecklistEntry
deriving DecidableEq

/-- Lines 116-137: assemble the output dictionary from the seven result lists.
Python slices `[:3]`, `[:5]`, `[1:3]` become `take 3`, `take 5`,
`(drop 1).take 2`. -/
def assemble (σ : List String → List String) (query project_name : String)
    (bnd : SearchBundle) : DesignSystem where
  project_name := project_name
  query := query
  rec_product := headMeta bnd.product
  rec_style := headMeta bnd.style
  rec_color_palette := headMeta bnd.color
  rec_typography := headMeta bnd.typography
  rec_landing_pattern := headMeta bnd.landing
  rec_charts := metas (bnd.chart.take 3)
  rec_ux_guidelines := metas (bnd.ux.take 5)
  alt_products := metas ((bnd.product.drop 1).take 2)
  alt_styles := metas ((bnd.style.drop 1).take 2)
  alt_colors := metas ((bnd.color.drop 1).take 2)
  alt_typography := metas ((bnd.typography.drop 1).take 2)
  alt_landing_patterns := metas ((bnd.landing.drop 1).take 2)
  anti_patterns := extract_anti_patterns σ bnd.product bnd.style
  checklist := generate_checklist bnd.ux

/-- `design_system_generator` (lines 104-139). -/
def design_system_generator (σ : List String → List String) (fs : DataDir)
    (st : EngineState) (query project_name : String) :
    Except LoadError (DesignSystem × EngineState) :=
  (dsgCore fs st query).map fun p => (assemble σ query project_name p.1, p.2)

end

/-! ### Arithmetic facts about the BM25 score -/

namespace BM25Index

theorem df_le_N (ix : BM25Index) (t : String) : ix.df t ≤ ix.N :=
  List.length_filter_le _ _

theorem avgdl_nonneg (ix : BM25Index) : 0 ≤ ix.avgdl :=
  div_nonneg (Nat.cast_nonneg _) (Nat.cast_nonneg _)

theorem df_pos_of_mem {ix : BM25Index} {dtoks : List String} {t : String}
    (hd : dtoks ∈ ix.corpus) (ht : t ∈ dtoks) : 1 ≤ ix.df t := by
  have hmem : dtoks ∈ ix.corpus.filter (fun dt => decide (t ∈ dt)) :=
    List.mem_filter.mpr ⟨hd, by simpa using ht⟩
  exact List.length_pos.mpr (List.ne_nil_of_mem hmem)

theorem idf_nonneg (ix : BM25Index) (t : String) :
    0 ≤ Real.log (((ix.N : ℝ) - (ix.df t : ℝ) + 0.5) / ((ix.df t : ℝ) + 0.5) + 1) := by
  have hdf : (ix.df t : ℝ) ≤ (ix.N : ℝ) := by exact_mod_cast ix.df_le_N t
  have hnum : (0 : ℝ) ≤ (ix.N : ℝ) - (ix.df t : ℝ) + 0.5 := by linarith
  have hden : (0 : ℝ) < (ix.df t : ℝ) + 0.5 := by positivity
  have : (0 : ℝ) ≤ ((ix.N : ℝ) - (ix.df t : ℝ) + 0.5) / ((ix.df t : ℝ) + 0.5) :=
    div_nonneg hnum hden.le
  exact Real.log_nonneg (by linarith)

theorem idf_pos {ix : BM25Index} {t : String} (h : 1 ≤ ix.df t) :
    0 < Real.log (((ix.N : ℝ) - (ix.df t : ℝ) + 0.5) / ((ix.df t : ℝ) + 0.5) + 1) := by
  have hdf : (ix.df t : ℝ) ≤ (ix.N : ℝ) := by exact_mod_cast ix.df_le_N t
  have hnum : (0 : ℝ) < (ix.N : ℝ) - (ix.df t : ℝ) + 0.5 := by linarith
  have hden : (0 : ℝ) < (ix.df t : ℝ) + 0.5 := by positivity
  exact Real.log_pos (by nlinarith [div_pos hnum hden])

theorem denom_pos (ix : BM25Index) (t : String) (d : List String) :
    0 < (d.count t : ℝ) +
      BM25.k1 * (1 - BM25.b + BM25.b * (d.length : ℝ) / ix.avgdl) := by
  have h1 : 0 ≤ (d.length : ℝ) / ix.avgdl :=
    div_nonneg (Nat.cast_nonneg _) ix.avgdl_nonneg
  have h2 : (0 : ℝ) ≤ (d.count t : ℝ) := Nat.cast_nonneg _
  unfold BM25.k1 BM25.b
  rw [mul_div_assoc]
  nlinarith

theorem termScore_nonneg (ix : BM25Index) (t : String) (d : List String) :
    0 ≤ ix.termScore t d := by
  unfold termScore
  split
  · exact le_refl 0
  · refine div_nonneg (mul_nonneg (ix.idf_nonneg t) ?_) (ix.denom_pos t d).le
    have : (0 : ℝ) ≤ BM25.k1 + 1 := by unfold BM25.k1; norm_num
    exact mul_nonneg (Nat.cast_nonneg _) this

theorem termScore_pos {ix : BM25Index} {t : String} {d : List String}
    (hc : 1 ≤ d.count t) (hdf : 1 ≤ ix.df t) : 0 < ix.termScore t d := by
  unfold termScore
  rw [if_neg (by omega)]
  refine div_pos (mul_pos (idf_pos hdf) ?_) (ix.denom_pos t d)
  have h1 : (0 : ℝ) < (d.count t : ℝ) := by exact_mod_cast hc
  have h2 : (0 : ℝ) < BM25.k1 + 1 := by unfold BM25.k1; norm_num
  exact mul_pos h1 h2

theorem score_nonneg (ix : BM25Index) (q : List String) (d : List String) :
    0 ≤ ix.score q d := by
  unfold score
  refine List.sum_nonneg ?_
  intro x hx
  rcases List.mem_map.mp hx with ⟨t, _, rfl⟩
  exact ix.termScore_nonneg t d

theorem score_pos {ix : BM25Index} {q : List String} {d : List String} {t : String}
    (ht : t ∈ q) (hc : 1 ≤ d.count t) (hdf : 1 ≤ ix.df t) : 0 < ix.score q d := by
  have hmem : ix.termScore t d ∈ q.map (fun u => ix.termScore u d) :=
    List.mem_map.mpr ⟨t, ht, rfl⟩
  have hle : ix.termScore t d ≤ (q.map (fun u => ix.termScore u d)).sum := by
    refine List.single_le_sum ?_ _ hmem
    intro x hx
    rcases List.mem_map.mp hx with ⟨u, _, rfl⟩
    exact ix.termScore_nonneg u d
  exact lt_of_lt_of_le (termScore_pos hc hdf) hle

theorem score_eq_zero {ix : BM25Index} {q : List String} {d : List String}
    (h : ∀ t ∈ q, d.count t = 0) : ix.score q d = 0 := by
  unfold score
  refine List.sum_eq_zero ?_
  intro x hx
  rcases List.mem_map.mp hx with ⟨t, htq, rfl⟩
  unfold termScore
  split
  · rfl
  · rw [h t htq]
    push_cast
    ring

end BM25Index

/-! ### The stable descending sort -/

theorem insertByScore_perm (x : SearchResult) (l : List SearchResult) :
    List.Perm (insertByScore x l) (x :: l) := by
  induction l with
  | nil => exact List.Perm.refl _
  | cons y ys ih =>
    unfold insertByScore
    split
    · exact List.Perm.refl _
    · exact (ih.cons y).trans (List.Perm.swap x y ys)

theorem mem_insertByScore {a x : SearchResult} {l : List SearchResult} :
    a ∈ insertByScore x l ↔ a = x ∨ a ∈ l := by
  rw [(insertByScore_perm x l).mem_iff, List.mem_cons]

theorem insertByScore_pairwise (x : SearchResult) {l : List SearchResult}
    (h : l.Pairwise (fun a b => b.score ≤ a.score)) :
    (insertByScore x l).Pairwise (fun a b => b.score ≤ a.score) := by
  induction l with
  | nil => simp [insertByScore]
  | cons y ys ih =>
    rcases List.pairwise_cons.mp h with ⟨hy, hys⟩
    unfold insertByScore
    split
    · rename_i hle
      refine List.pairwise_cons.mpr ⟨?_, h⟩
      intro z hz
      rcases List.mem_cons.mp hz with rfl | hz'
      · exact hle
      · exact le_trans (hy z hz') hle
    · rename_i hgt
      refine List.pairwise_cons.mpr ⟨?_, ih hys⟩
      intro z hz
      rcases mem_insertByScore.mp hz with rfl | hz'
      · exact (not_le.mp hgt).le
      · exact hy z hz'

theorem sortByScoreDesc_perm (l : List SearchResult) :
    List.Perm (sortByScoreDesc l) l := by
  induction l with
  | nil => exact List.Perm.refl _
  | cons x xs ih =>
    exact (insertByScore_perm x (sortByScoreDesc xs)).trans (ih.cons x)

theorem sortByScoreDesc_pairwise (l : List SearchResult) :
    (sortByScoreDesc l).Pairwise (fun a b => b.score ≤ a.score) := by
  induction l with
  | nil => simp [sortByScoreDesc]
  | cons x xs ih => exact insertByScore_pairwise x ih

theorem filter_insertByScore (s : ℝ) (x : SearchResult) (l : List SearchResult) :
    (insertByScore x l).filter (fun r => decide (r.score = s)) =
      if x.score = s then x :: l.filter (fun r => decide (r.score = s))
      else l.filter (fun r => decide (r.score = s)) := by
  induction l with
  | nil =>
    by_cases hx : x.score = s <;> simp [insertByScore, List.filter, hx]
  | cons y ys ih =>
    unfold insertByScore
    split
    · rename_i hle
      by_cases hx : x.score = s <;> simp [List.filter_cons, hx]
    · rename_i hgt
      have hxy : x.score < y.score := not_le.mp hgt
      by_cases hy : y.score = s
      · have hx : ¬ x.score = s := by
          intro hx; rw [hx, hy] at hxy; exact lt_irrefl s hxy
        simp [List.filter_cons, hy, hx, ih]
      · by_cases hx : x.score = s <;> simp [List.filter_cons, hy, hx, ih]

theorem sortByScoreDesc_filter (s : ℝ) (l : List SearchResult) :
    (sortByScoreDesc l).filter (fun r => decide (r.score = s)) =
      l.filter (fun r => decide (r.score = s)) := by
  induction l with
  | nil => rfl
  | cons x xs ih =>
    unfold sortByScoreDesc
    rw [filter_insertByScore, List.filter_cons]
    by_cases hx : x.score = s <;> simp [hx, ih]

/-! ### Python slice facts -/

theorem pySlice_ofNat {α : Type} (k : ℕ) (xs : List α) :
    pySlice (k : ℤ) xs = xs.take k := by
  unfold pySlice
  rw [if_pos (Int.ofNat_nonneg k)]
  simp

theorem pySlice_neg {α : Type} {m : ℤ} (hm : m < 0) (xs : List α) :
    pySlice m xs = xs.take (xs.length - (-m).toNat) := by
  unfold pySlice
  rw [if_neg (not_le.mpr hm)]

theorem dropLast_iterate {α : Type} (j : ℕ) (xs : List α) :
    List.dropLast^[j] xs = xs.take (xs.length - j) := by
  induction j with
  | zero => simp
  | succ n ih =>
    rw [Function.iterate_succ_apply', ih, List.dropLast_eq_take, List.length_take,
      List.take_take]
    congr 1
    omega

/-! ### Step lemmas for the search loop -/

theorem searchLoop_nil (fs : DataDir) (qtoks : List String) (st : EngineState) :
    searchLoop fs qtoks [] st = (.ok [], st, []) := rfl

theorem searchLoop_cons_built {fs : DataDir} {qtoks : List String} {d : String}
    {rest : List String} {st : EngineState} {docs : List Rec}
    (h : st.built d = some docs) :
    searchLoop fs qtoks (d :: rest) st =
      ((searchLoop fs qtoks rest st).1.map
          (fun more => domainHits st d qtoks ++ more),
        (searchLoop fs qtoks rest st).2.1, (searchLoop fs qtoks rest st).2.2) := by
  simp only [searchLoop, h]

theorem searchLoop_cons_none_err {fs : DataDir} {qtoks : List String} {d : String}
    {rest : List String} {st : EngineState} {e : LoadError}
    (h1 : st.built d = none) (h2 : load_domain fs d = .error e) :
    searchLoop fs qtoks (d :: rest) st = (.error e, st, [d]) := by
  simp only [searchLoop, h1, h2]

theorem searchLoop_cons_none_ok {fs : DataDir} {qtoks : List String} {d : String}
    {rest : List String} {st : EngineState} {docs : List Rec}
    (h1 : st.built d = none) (h2 : load_domain fs d = .ok docs) :
    searchLoop fs qtoks (d :: rest) st =
      (((searchLoop fs qtoks rest
            (if docs.isEmpty then st else setBuilt st d docs)).1).map
          (fun more =>
            domainHits (if docs.isEmpty then st else setBuilt st d docs) d qtoks ++
              more),
        (searchLoop fs qtoks rest
            (if docs.isEmpty then st else setBuilt st d docs)).2.1,
        d :: (searchLoop fs qtoks rest
            (if docs.isEmpty then st else setBuilt st d docs)).2.2) := by
  simp only [searchLoop, h1, h2]

/-! ### Facts about the search loop and `search` -/

theorem mkHits_pos {d : String} {docs : List Rec} {qtoks : List String} :
    ∀ r ∈ mkHits d docs qtoks, 0 < r.score := by
  intro r hr
  unfold mkHits at hr
  rcases List.mem_filterMap.mp hr with ⟨p, _, he⟩
  by_cases h : 0 < p.2
  · rw [if_pos h] at he
    cases he
    exact h
  · rw [if_neg h] at he
    cases he

theorem domainHits_pos {st : EngineState} {d : String} {qtoks : List String} :
    ∀ r ∈ domainHits st d qtoks, 0 < r.score := by
  intro r hr
  unfold domainHits at hr
  split at hr
  · cases hr
  · split at hr
    · cases hr
    · exact mkHits_pos r hr

theorem searchLoop_pos (fs : DataDir) (qtoks : List String) :
    ∀ (ds : List String) (st : EngineState) (pool : List SearchResult),
      (searchLoop fs qtoks ds st).1 = .ok pool → ∀ r ∈ pool, 0 < r.score := by
  intro ds
  induction ds with
  | nil =>
    intro st pool h
    rw [searchLoop_nil] at h
    cases h
    intro r hr
    cases hr
  | cons d rest ih =>
    intro st pool h
    rcases hb : st.built d with _ | docs
    · rcases hl : load_domain fs d with e | docs0
      · rw [searchLoop_cons_none_err hb hl] at h
        cases h
      · rw [searchLoop_cons_none_ok hb hl] at h
        rcases hr : (searchLoop fs qtoks rest
            (if docs0.isEmpty then st else setBuilt st d docs0)).1 with e | more
        · rw [hr] at h
          cases h
        · rw [hr] at h
          simp only [Except.map] at h
          cases h
          intro r hrm
          rcases List.mem_append.mp hrm with hh | hm
          · exact domainHits_pos r hh
          · exact ih _ more hr r hm
    · rw [searchLoop_cons_built hb] at h
      rcases hr : (searchLoop fs qtoks rest st).1 with e | more
      · rw [hr] at h
        cases h
      · rw [hr] at h
        simp only [Except.map] at h
        cases h
        intro r hrm
        rcases List.mem_append.mp hrm with hh | hm
        · exact domainHits_pos r hh
        · exact ih _ more hr r hm

theorem searchLoop_all_empty (fs : DataDir) (qtoks : List String) :
    ∀ (ds : List String) (st : EngineState),
      (∀ d ∈ ds, st.built d = none ∧ load_domain fs d = .ok []) →
      searchLoop fs qtoks ds st = (.ok [], st, ds) := by
  intro ds
  induction ds with
  | nil => intro st _; rfl
  | cons d rest ih =>
    intro st h
    obtain ⟨hb, hl⟩ := h d (List.mem_cons_self d rest)
    rw [searchLoop_cons_none_ok hb hl]
    simp only [List.isEmpty_nil, if_true]
    rw [ih st (fun d' hd' => h d' (List.mem_cons_of_mem _ hd'))]
    simp [domainHits, hb, Except.map]

theorem searchLoop_err (fs : DataDir) (qtoks : List String) :
    ∀ (ds : List String) (st : EngineState) (d : String), ds.Nodup → d ∈ ds →
      st.built d = none → fs (filenameFor d) = .ioError →
      (searchLoop fs qtoks ds st).1 = .error .dataSourceUnavailable := by
  intro ds
  induction ds with
  | nil => intro st d _ hd; cases hd
  | cons d' rest ih =>
    intro st d hnd hd hb hio
    by_cases hdd : d' = d
    · subst hdd
      have hl : load_domain fs d' = .error .dataSourceUnavailable := by
        unfold load_domain
        rw [hio]
      rw [searchLoop_cons_none_err hb hl]
    · have hd' : d ∈ rest := by
        rcases List.mem_cons.mp hd with rfl | hmem
        · exact absurd rfl hdd
        · exact hmem
      have hnd' : rest.Nodup := (List.nodup_cons.mp hnd).2
      rcases hb' : st.built d' with _ | docs
      · rcases hl : load_domain fs d' with e | docs0
        · have he : e = .dataSourceUnavailable := by cases e; rfl
          subst he
          rw [searchLoop_cons_none_err hb' hl]
        · rw [searchLoop_cons_none_ok hb' hl]
          have hb1 : (if docs0.isEmpty then st else setBuilt st d' docs0).built d = none := by
            by_cases he : docs0.isEmpty
            · rw [if_pos he]; exact hb
            · rw [if_neg he]
              simp only [setBuilt]
              rw [if_neg (fun hc => hdd hc.symm)]
              exact hb
          have := ih _ d hnd' hd' hb1 hio
          rw [this]
          rfl
      · rw [searchLoop_cons_built hb']
        have := ih st d hnd' hd' hb hio
        rw [this]
        rfl

theorem fixedDomains_nodup : fixedDomains.Nodup := by decide

theorem searchDomains_nodup (dom : Option String) : (searchDomains dom).Nodup := by
  cases dom with
  | none => exact fixedDomains_nodup
  | some d =>
    simp only [searchDomains]
    split
    · exact fixedDomains_nodup
    · simp

theorem searchDomains_filter {d : String} (hne : d ≠ "") :
    searchDomains (some d) = [d] := by
  simp only [searchDomains]
  rw [if_neg hne]

theorem search_fst (fs : DataDir) (st : EngineState) (q : String)
    (dom : Option String) (k : ℤ) :
    (search fs st q dom k).1 =
      ((searchLoop fs (tokenize q) (searchDomains dom) st).1).map
        (fun pool => pySlice k (sortByScoreDesc pool)) := rfl

theorem search_snd (fs : DataDir) (st : EngineState) (q : String)
    (dom : Option String) (k : ℤ) :
    (search fs st q dom k).2 =
      (searchLoop fs (tokenize q) (searchDomains dom) st).2 := rfl

theorem search_ok_of_loop {fs : DataDir} {st : EngineState} {q : String}
    {dom : Option String} {k : ℤ} {pool : List SearchResult}
    (hp : (searchLoop fs (tokenize q) (searchDomains dom) st).1 = .ok pool) :
    (search fs st q dom k).1 = .ok (pySlice k (sortByScoreDesc pool)) := by
  rw [search_fst, hp]
  rfl

theorem search_ok_elim {fs : DataDir} {st : EngineState} {q : String}
    {dom : Option String} {k : ℤ} {res : List SearchResult}
    (h : (search fs st q dom k).1 = .ok res) :
    ∃ pool, (searchLoop fs (tokenize q) (searchDomains dom) st).1 = .ok pool ∧
      res = pySlice k (sortByScoreDesc pool) := by
  rw [search_fst] at h
  rcases hr : (searchLoop fs (tokenize q) (searchDomains dom) st).1 with e | pool
  · rw [hr] at h
    cases h
  · rw [hr] at h
    simp only [Except.map] at h
    cases h
    exact ⟨pool, rfl, rfl⟩

/-! ### Concrete fixtures used by witnesses and counterexamples -/

/-- A data directory with no files at all. -/
def fsMiss : DataDir := fun _ => .missing

/-- One product record matching the query `"alpha"`, carrying anti-patterns. -/
def prodRow : Rec := [("name", "alpha"), ("anti_patterns", "bad1;bad2")]

/-- A data directory whose only file is `products.csv` with one row. -/
def fsOne : DataDir := fun f => if f = "products.csv" then .rows [prodRow] else .missing

/-- One style record matching the query `"alpha"`. -/
def styleRow : Rec := [("name", "alpha")]

/-- A data directory where `products.csv` is unreadable and `styles.csv` has one
matching row. -/
def fsErr : DataDir := fun f =>
  if f = "products.csv" then .ioError
  else if f = "styles.csv" then .rows [styleRow] else .missing

/-- The engine state after the product index has been built from `fsOne`. -/
def stOne : EngineState := setBuilt initState "product" [prodRow]

noncomputable section

/-- The BM25 score of `prodRow` for the query `"alpha"` in its one-row index. -/
def prodScore : ℝ :=
  (indexFor [prodRow]).score (tokenize "alpha") (tokenize (recordText prodRow))

/-- The hit produced for `prodRow` by a search for `"alpha"`. -/
def prodHit : SearchResult := ⟨"product", prodRow, prodRow, prodScore⟩

/-- The BM25 score of `styleRow` for the query `"alpha"` in its one-row index. -/
def styleScore : ℝ :=
  (indexFor [styleRow]).score (tokenize "alpha") (tokenize (recordText styleRow))

/-- The hit produced for `styleRow` by a search for `"alpha"`. -/
def styleHit : SearchResult := ⟨"style", styleRow, styleRow, styleScore⟩

end

/-- The empty result bundle (every per-domain search came back empty). -/
def emptyBundle : SearchBundle := ⟨[], [], [], [], [], [], []⟩

/-- The bundle produced by `design_system_generator` over `fsOne`. -/
noncomputable def bundleOne : SearchBundle := ⟨[prodHit], [], [], [], [], [], []⟩

theorem prodScore_pos : 0 < prodScore :=
  BM25Index.score_pos (t := "alpha") (by decide) (by decide) (by decide)

theorem styleScore_pos : 0 < styleScore :=
  BM25Index.score_pos (t := "alpha") (by decide) (by decide) (by decide)

/-- Evaluating `mkHits` on a one-row domain whose score is positive. -/
theorem mkHits_singleton {d : String} {r : Rec} {qtoks : List String}
    (hs : 0 < (indexFor [r]).score qtoks (tokenize (recordText r))) :
    mkHits d [r] qtoks =
      [⟨d, r, r, (indexFor [r]).score qtoks (tokenize (recordText r))⟩] := by
  unfold mkHits
  have hg : (indexFor [r]).getScores qtoks =
      [(indexFor [r]).score qtoks (tokenize (recordText r))] := rfl
  rw [hg]
  rw [show ([r].zip [(indexFor [r]).score qtoks (tokenize (recordText r))]) =
      [(r, (indexFor [r]).score qtoks (tokenize (recordText r)))] from rfl]
  rw [List.filterMap_cons]
  have hs2 : 0 < ((r, (indexFor [r]).score qtoks (tokenize (recordText r))).2) := hs
  rw [if_pos hs2]
  rfl

theorem domainHits_built_singleton {st : EngineState} {d : String} {r : Rec}
    {qtoks : List String} (hb : st.built d = some [r])
    (hs : 0 < (indexFor [r]).score qtoks (tokenize (recordText r))) :
    domainHits st d qtoks =
      [⟨d, r, r, (indexFor [r]).score qtoks (tokenize (recordText r))⟩] := by
  unfold domainHits
  rw [hb]
  simp only [List.isEmpty_cons, Bool.false_eq_true, if_false]
  exact mkHits_singleton hs

/-- A search loop over one domain whose loader yields a single positive-score
row: the row is loaded, cached, and returned as the only hit. -/
theorem searchLoop_single_rows {fs : DataDir} {d : String} {r : Rec}
    {qtoks : List String} {st : EngineState}
    (hb : st.built d = none) (hl : load_domain fs d = .ok [r])
    (hs : 0 < (indexFor [r]).score qtoks (tokenize (recordText r))) :
    searchLoop fs qtoks [d] st =
      (.ok [⟨d, r, r, (indexFor [r]).score qtoks (tokenize (recordText r))⟩],
        setBuilt st d [r], [d]) := by
  rw [searchLoop_cons_none_ok hb hl]
  simp only [List.isEmpty_cons, Bool.false_eq_true, if_false]
  rw [searchLoop_nil]
  have hb1 : (setBuilt st d [r]).built d = some [r] := by
    simp [setBuilt]
  rw [domainHits_built_singleton hb1 hs]
  rfl

/-- A search filtered on a single non-empty domain name with no data: nothing
cached, loader invoked, nothing found. -/
theorem search_empty_domain {fs : DataDir} {d : String} {q : String} {k : ℤ}
    {st : EngineState} (hb : st.built d = none) (hl : load_domain fs d = .ok [])
    (hne : d ≠ "") :
    search fs st q (some d) k = (.ok [], st, [d]) := by
  unfold search
  rw [searchDomains_filter hne]
  rw [searchLoop_all_empty fs (tokenize q) [d] st
    (by intro d' hd'; rw [List.mem_singleton.mp hd']; exact ⟨hb, hl⟩)]
  have : pySlice (α := SearchResult) k (sortByScoreDesc []) = [] := by
    unfold pySlice sortByScoreDesc
    split <;> simp
  simp [Except.map, this]

/-- The filtered product search over `fsOne`. -/
theorem search_fsOne_product :
    search fsOne initState "alpha" (some "product") 3 =
      (.ok [prodHit], stOne, ["product"]) := by
  unfold search
  rw [show searchDomains (some "product") = ["product"] from rfl]
  rw [searchLoop_single_rows
    (show initState.built "product" = none from rfl)
    (show load_domain fsOne "product" = Except.ok [prodRow] from rfl)
    prodScore_pos]
  show (Except.ok (pySlice 3 (sortByScoreDesc [prodHit])), stOne, ["product"]) = _
  rw [show sortByScoreDesc [prodHit] = [prodHit] from rfl]
  rw [show pySlice (3 : ℤ) [prodHit] = [prodHit] from rfl]

/-- The unfiltered search loop over `fsOne`: the product hit plus six empty
domains. -/
theorem loop_fsOne_all :
    searchLoop fsOne (tokenize "alpha") fixedDomains initState =
      (.ok [prodHit], stOne, fixedDomains) := by
  rw [show fixedDomains =
    "product" :: ["style", "color", "typography", "landing", "chart", "ux"] from rfl]
  rw [searchLoop_cons_none_ok
    (show initState.built "product" = none from rfl)
    (show load_domain fsOne "product" = Except.ok [prodRow] from rfl)]
  simp only [List.isEmpty_cons, Bool.false_eq_true, if_false]
  rw [show setBuilt initState "product" [prodRow] = stOne from rfl]
  rw [searchLoop_all_empty fsOne (tokenize "alpha")
      ["style", "color", "typography", "landing", "chart", "ux"] stOne
      (by intro d' hd'; fin_cases hd' <;> exact ⟨rfl, rfl⟩)]
  rw [domainHits_built_singleton (r := prodRow) rfl prodScore_pos]
  rfl

/-- The filtered style search over `fsErr`. -/
theorem search_fsErr_style :
    search fsErr initState "alpha" (some "style") 10 =
      (.ok [styleHit], setBuilt initState "style" [styleRow], ["style"]) := by
  unfold search
  rw [show searchDomains (some "style") = ["style"] from rfl]
  rw [searchLoop_single_rows
    (show initState.built "style" = none from rfl)
    (show load_domain fsErr "style" = Except.ok [styleRow] from rfl)
    styleScore_pos]
  show (Except.ok (pySlice 10 (sortByScoreDesc [styleHit])), _, _) = _
  rw [show sortByScoreDesc [styleHit] = [styleHit] from rfl]
  rw [show pySlice (10 : ℤ) [styleHit] = [styleHit] from rfl]

/-! ### Facts about the composer -/

theorem exceptBind_ok {α β ε : Type} {x : Except ε α} {f : α → Except ε β} {b : β}
    (h : x.bind f = .ok b) : ∃ a, x = .ok a ∧ f a = .ok b := by
  cases x with
  | error e => exact Except.noConfusion h
  | ok a => exact ⟨a, rfl, h⟩

theorem searchE_ok_elim {fs : DataDir} {q d : String} {k : ℤ} {st : EngineState}
    {rs : List SearchResult} {st' : EngineState}
    (h : searchE fs q d k st = .ok (rs, st')) :
    (search fs st q (some d) k).1 = .ok rs := by
  unfold searchE at h
  rcases hs : search fs st q (some d) k with ⟨r, s2, l⟩
  rw [hs] at h
  cases r with
  | error e => exact Except.noConfusion h
  | ok rs2 =>
    have h2 : rs2 = rs := congrArg Prod.fst (Except.ok.inj h)
    rw [h2]

theorem searchE_empty {fs : DataDir} {d q : String} {k : ℤ} {st : EngineState}
    (hb : st.built d = none) (hl : load_domain fs d = .ok [])
    (hne : d ≠ "") :
    searchE fs q d k st = .ok ([], st) := by
  unfold searchE
  rw [search_empty_domain hb hl hne]

theorem searchE_fsOne_product :
    searchE fsOne "alpha" "product" 3 initState = .ok ([prodHit], stOne) := by
  unfold searchE
  rw [search_fsOne_product]

theorem search_len_le {fs : DataDir} {st : EngineState} {q : String}
    {dom : Option String} {k : ℕ} {res : List SearchResult}
    (h : (search fs st q dom (k : ℤ)).1 = .ok res) : res.length ≤ k := by
  obtain ⟨pool, _, rfl⟩ := search_ok_elim h
  rw [pySlice_ofNat, List.length_take]
  exact min_le_left _ _

theorem dsgCore_ux_length {fs : DataDir} {st : EngineState} {q : String}
    {p : SearchBundle × EngineState} (hc : dsgCore fs st q = .ok p) :
    p.1.ux.length ≤ 5 := by
  unfold dsgCore at hc
  obtain ⟨pr, hpr, hc⟩ := exceptBind_ok hc
  obtain ⟨sr, hsr, hc⟩ := exceptBind_ok hc
  obtain ⟨cr, hcr, hc⟩ := exceptBind_ok hc
  obtain ⟨tr, htr, hc⟩ := exceptBind_ok hc
  obtain ⟨lr, hlr, hc⟩ := exceptBind_ok hc
  obtain ⟨hr, hhr, hc⟩ := exceptBind_ok hc
  obtain ⟨⟨urs, urst⟩, hur, hc⟩ := exceptBind_ok hc
  obtain rfl := Except.ok.inj hc
  exact search_len_le (k := 5) (searchE_ok_elim hur)

theorem dsgCore_fsMiss (q : String) :
    dsgCore fsMiss initState q = .ok (emptyBundle, initState) := by
  unfold dsgCore
  simp only [
    searchE_empty (show initState.built "product" = none from rfl)
      (show load_domain fsMiss "product" = Except.ok [] from rfl) (by decide),
    searchE_empty (show initState.built "style" = none from rfl)
      (show load_domain fsMiss "style" = Except.ok [] from rfl) (by decide),
    searchE_empty (show initState.built "color" = none from rfl)
      (show load_domain fsMiss "color" = Except.ok [] from rfl) (by decide),
    searchE_empty (show initState.built "typography" = none from rfl)
      (show load_domain fsMiss "typography" = Except.ok [] from rfl) (by decide),
    searchE_empty (show initState.built "landing" = none from rfl)
      (show load_domain fsMiss "landing" = Except.ok [] from rfl) (by decide),
    searchE_empty (show initState.built "chart" = none from rfl)
      (show load_domain fsMiss "chart" = Except.ok [] from rfl) (by decide),
    searchE_empty (show initState.built "ux" = none from rfl)
      (show load_domain fsMiss "ux" = Except.ok [] from rfl) (by decide),
    Except.bind]
  rfl

theorem dsgCore_fsOne :
    dsgCore fsOne initState "alpha" = .ok (bundleOne, stOne) := by
  unfold dsgCore
  simp only [searchE_fsOne_product,
    searchE_empty (show stOne.built "style" = none from rfl)
      (show load_domain fsOne "style" = Except.ok [] from rfl) (by decide),
    searchE_empty (show stOne.built "color" = none from rfl)
      (show load_domain fsOne "color" = Except.ok [] from rfl) (by decide),
    searchE_empty (show stOne.built "typography" = none from rfl)
      (show load_domain fsOne "typography" = Except.ok [] from rfl) (by decide),
    searchE_empty (show stOne.built "landing" = none from rfl)
      (show load_domain fsOne "landing" = Except.ok [] from rfl) (by decide),
    searchE_empty (show stOne.built "chart" = none from rfl)
      (show load_domain fsOne "chart" = Except.ok [] from rfl) (by decide),
    searchE_empty (show stOne.built "ux" = none from rfl)
      (show load_domain fsOne "ux" = Except.ok [] from rfl) (by decide),
    Except.bind]
  rfl

theorem dsg_fsMiss (σ : List String → List String) (q pn : String) :
    design_system_generator σ fsMiss initState q pn =
      .ok (assemble σ q pn emptyBundle, initState) := by
  unfold design_system_generator
  rw [dsgCore_fsMiss]
  rfl

theorem dsg_fsOne (σ : List String → List String) (pn : String) :
    design_system_generator σ fsOne initState "alpha" pn =
      .ok (assemble σ "alpha" pn bundleOne, stOne) := by
  unfold design_system_generator
  rw [dsgCore_fsOne]
  rfl

theorem antiRaw_prodHit : antiPatternsRaw [prodHit] = ["bad1", "bad2"] := rfl

theorem isSetOrder_dedup : IsSetOrder List.dedup :=
  fun l => ⟨List.nodup_dedup l, fun _ => List.mem_dedup⟩

theorem isSetOrder_dedup_reverse : IsSetOrder (fun l => l.dedup.reverse) :=
  fun l => ⟨List.nodup_reverse.mpr (List.nodup_dedup l),
    fun x => by simp [List.mem_reverse, List.mem_dedup]⟩

theorem truthy_elim {o : Option String} (h : truthy o = true) :
    ∃ s, o = some s ∧ s ≠ "" := by
  cases o with
  | none => exact Bool.noConfusion h
  | some s =>
    refine ⟨s, rfl, ?_⟩
    simpa [truthy] using h

theorem generate_checklist_length (ux : List SearchResult) :
    (generate_checklist ux).length ≤ ux.length := by
  unfold generate_checklist
  refine le_trans (List.length_filterMap_le _ _) ?_
  rw [List.length_take]
  exact min_le_right _ _

theorem generate_checklist_fields {ux : List SearchResult} {e : ChecklistEntry}
    (he : e ∈ generate_checklist ux) : e.item ≠ "" ∧ e.rule ≠ "" := by
  unfold generate_checklist at he
  rcases List.mem_filterMap.mp he with ⟨r, _, hr⟩
  by_cases hc : (truthy (lookupField r.metadata "guideline_name") &&
      truthy (lookupField r.metadata "rule")) = true
  · rw [if_pos hc] at hr
    obtain ⟨hg, hru⟩ := Bool.and_eq_true_iff.mp hc
    obtain ⟨sg, hsg, hsg'⟩ := truthy_elim hg
    obtain ⟨sr, hsr, hsr'⟩ := truthy_elim hru
    cases hr
    constructor
    · show (lookupField r.metadata "guideline_name").getD "" ≠ ""
      rw [hsg]
      exact hsg'
    · show (lookupField r.metadata "rule").getD "" ≠ ""
      rw [hsr]
      exact hsr'
  · rw [if_neg hc] at hr
    exact Option.noConfusion hr

theorem filenameFor_not_fixed {d : String} (hd : d ∉ fixedDomains) :
    filenameFor d = d ++ ".csv" := by
  unfold filenameFor
  have hnone : domainsTable.lookup d = none := by
    rw [List.lookup_eq_none_iff]
    intro p hp
    rw [bne_iff_ne]
    intro he
    exact hd (he ▸ List.mem_map.mpr ⟨p, hp, rfl⟩)
  rw [hnone]

theorem domainHits_built {st : EngineState} {d : String} {docs : List Rec}
    {qtoks : List String} (hb : st.built d = some docs)
    (he : docs.isEmpty = false) :
    domainHits st d qtoks = mkHits d docs qtoks := by
  unfold domainHits
  rw [hb]
  simp [he]

theorem pySlice_nil {α : Type} (k : ℤ) : pySlice k ([] : List α) = [] := by
  unfold pySlice
  split <;> simp

/-! ### The claims -/

/-- Claim C1: for every built category index (non-empty corpus), the score of a
document in it is accumulated as the sum over the query tokens of per-token
contributions; for a token present in the vocabulary the contribution is
exactly `IDF(t) · TF(t,d)·(k1+1) / (TF(t,d) + k1·(1 − b + b·|d|/avgdl))` with
`k1 = 1.5`, `b = 0.75` and the "+1"-smoothed
`IDF(t) = log((N − df(t) + 0.5)/(df(t) + 0.5) + 1)`; and no term ever
contributes a negative amount to any document's score. -/
theorem C1_bm25_formula_and_nonneg (ix : BM25Index) (hne : ix.corpus ≠ [])
    (q : List String) (t : String) (d : List String) (hd : d ∈ ix.corpus) :
    ix.score q d = (q.map (fun u => ix.termScore u d)).sum ∧
    (0 < ix.df t →
      ix.termScore t d =
        Real.log (((ix.N : ℝ) - (ix.df t : ℝ) + 0.5) / ((ix.df t : ℝ) + 0.5) + 1) *
            ((d.count t : ℝ) * ((1.5 : ℝ) + 1)) /
          ((d.count t : ℝ) +
            (1.5 : ℝ) * (1 - (0.75 : ℝ) + (0.75 : ℝ) * (d.length : ℝ) / ix.avgdl))) ∧
    0 ≤ ix.termScore t d := by
  refine ⟨rfl, ?_, ix.termScore_nonneg t d⟩
  intro hdf
  unfold BM25Index.termScore
  rw [if_neg (by omega)]
  unfold BM25.k1 BM25.b
  rfl

/-- Witness for C1 at the one-document index over `["alpha"]`. -/
theorem C1_bm25_formula_and_nonneg_witness :
    (BM25Index.mk [["alpha"]]).corpus ≠ [] ∧
    (["alpha"] : List String) ∈ (BM25Index.mk [["alpha"]]).corpus ∧
    0 ≤ (BM25Index.mk [["alpha"]]).termScore "alpha" ["alpha"] :=
  ⟨by decide, by decide,
    (C1_bm25_formula_and_nonneg ⟨[["alpha"]]⟩ (by decide) ["alpha"] "alpha"
      ["alpha"] (by decide)).2.2⟩

/-- Counterexample to claim C2 as stated: `_extract_anti_patterns` passes the
accumulated phrases through `list(set(...))`, whose enumeration order is only
fixed per process (hash randomization); two runs whose set enumerations are
both admissible (`IsSetOrder`) can return different documents — here they
differ in the ordering of `anti_patterns`. -/
theorem C2_counterexample_antiPatterns_order :
    IsSetOrder List.dedup ∧ IsSetOrder (fun l => l.dedup.reverse) ∧
    design_system_generator List.dedup fsOne initState "alpha" "Proj" ≠
      design_system_generator (fun l => l.dedup.reverse) fsOne initState "alpha"
        "Proj" := by
  refine ⟨isSetOrder_dedup, isSetOrder_dedup_reverse, ?_⟩
  intro h
  rw [dsg_fsOne List.dedup "Proj", dsg_fsOne (fun l => l.dedup.reverse) "Proj"] at h
  have h2 := Except.ok.inj h
  have h3 := congrArg (fun p => p.1.anti_patterns) h2
  simp only [assemble, extract_anti_patterns, bundleOne, antiRaw_prodHit] at h3
  exact absurd h3 (by decide)

/-- Claim C2 amended: `design_system_generator` is deterministic given a fixed
loaded corpus except for the `anti_patterns` list: two runs agree on the final
engine state and on every other field; both `anti_patterns` lists are the
first five elements of an admissible enumeration of the same accumulated
phrase list, and whenever that list has at most 5 distinct phrases the two
`anti_patterns` lists are permutations of each other (ordering, and beyond 5
distinct phrases also selection, may differ between runs). -/
theorem C2_amended_deterministic_up_to_set_order
    (σ₁ σ₂ : List String → List String) (h₁ : IsSetOrder σ₁) (h₂ : IsSetOrder σ₂)
    (fs : DataDir) (st : EngineState) (q pn : String)
    (out₁ out₂ : DesignSystem) (st₁ st₂ : EngineState)
    (e₁ : design_system_generator σ₁ fs st q pn = .ok (out₁, st₁))
    (e₂ : design_system_generator σ₂ fs st q pn = .ok (out₂, st₂)) :
    st₁ = st₂ ∧
    { out₁ with anti_patterns := [] } = { out₂ with anti_patterns := [] } ∧
    ∃ pats : List String,
      out₁.anti_patterns = (σ₁ pats).take 5 ∧
      out₂.anti_patterns = (σ₂ pats).take 5 ∧
      (pats.dedup.length ≤ 5 →
        List.Perm out₁.anti_patterns out₂.anti_patterns) := by
  unfold design_system_generator at e₁ e₂
  rcases hc : dsgCore fs st q with e | p
  · rw [hc] at e₁
    exact Except.noConfusion e₁
  · rw [hc] at e₁ e₂
    simp only [Except.map] at e₁ e₂
    have g₁ := Except.ok.inj e₁
    have g₂ := Except.ok.inj e₂
    have ha₁ : assemble σ₁ q pn p.1 = out₁ := congrArg Prod.fst g₁
    have hb₁ : p.2 = st₁ := congrArg Prod.snd g₁
    have ha₂ : assemble σ₂ q pn p.1 = out₂ := congrArg Prod.fst g₂
    have hb₂ : p.2 = st₂ := congrArg Prod.snd g₂
    subst ha₁ hb₁ ha₂ hb₂
    refine ⟨rfl, rfl, antiPatternsRaw p.1.product, rfl, rfl, fun hlen => ?_⟩
    have hp₁ := h₁ (antiPatternsRaw p.1.product)
    have hp₂ := h₂ (antiPatternsRaw p.1.product)
    have perm₁ : List.Perm (σ₁ (antiPatternsRaw p.1.product))
        (antiPatternsRaw p.1.product).dedup :=
      List.perm_of_nodup_nodup_toFinset_eq hp₁.1
        (List.nodup_dedup _)
        (Finset.ext fun x => by
          simp only [List.mem_toFinset, List.mem_dedup]
          exact hp₁.2 x)
    have perm₂ : List.Perm (σ₂ (antiPatternsRaw p.1.product))
        (antiPatternsRaw p.1.product).dedup :=
      List.perm_of_nodup_nodup_toFinset_eq hp₂.1
        (List.nodup_dedup _)
        (Finset.ext fun x => by
          simp only [List.mem_toFinset, List.mem_dedup]
          exact hp₂.2 x)
    have t₁ : (σ₁ (antiPatternsRaw p.1.product)).take 5 =
        σ₁ (antiPatternsRaw p.1.product) :=
      List.take_of_length_le (by rw [perm₁.length_eq]; omega)
    have t₂ : (σ₂ (antiPatternsRaw p.1.product)).take 5 =
        σ₂ (antiPatternsRaw p.1.product) :=
      List.take_of_length_le (by rw [perm₂.length_eq]; omega)
    show List.Perm ((σ₁ (antiPatternsRaw p.1.product)).take 5)
      ((σ₂ (antiPatternsRaw p.1.product)).take 5)
    rw [t₁, t₂]
    exact perm₁.trans perm₂.symm

/-- Witness for the amended C2 on the all-missing corpus. -/
theorem C2_amended_witness :
    IsSetOrder List.dedup ∧
    design_system_generator List.dedup fsMiss initState "w" "P" =
      .ok (assemble List.dedup "w" "P" emptyBundle, initState) ∧
    initState = initState :=
  ⟨isSetOrder_dedup, dsg_fsMiss List.dedup "w" "P",
    (C2_amended_deterministic_up_to_set_order List.dedup List.dedup
      isSetOrder_dedup isSetOrder_dedup fsMiss initState "w" "P" _ _ _ _
      (dsg_fsMiss List.dedup "w" "P") (dsg_fsMiss List.dedup "w" "P")).1⟩

/-- Counterexample to claim C3 as stated: when `products.csv` is unreadable but
`styles.csv` has a positive-scoring row, the unfiltered search does not drop
only the product category and return the style results — it raises
`DataSourceUnavailable`, even though a style-filtered search over the same data
returns a hit. There is no `try`/`except` in `search` or `build_index`. -/
theorem C3_counterexample_error_propagates_unfiltered :
    fsErr "products.csv" = .ioError ∧
    (search fsErr initState "alpha" (some "style") 10).1 = .ok [styleHit] ∧
    (search fsErr initState "alpha" none 10).1 = .error .dataSourceUnavailable := by
  refine ⟨rfl, ?_, ?_⟩
  · rw [search_fsErr_style]
  · rw [search_fst]
    rw [searchLoop_err fsErr (tokenize "alpha") (searchDomains none) initState
      "product" (searchDomains_nodup none) (by decide) rfl rfl]
    rfl

/-- Claim C3 amended: a loader I/O failure for a not-yet-built target category
propagates `DataSourceUnavailable` to the caller in every search whose target
set contains that category — filtered or unfiltered alike; no category's
contribution is dropped. -/
theorem C3_amended_error_always_propagates (fs : DataDir) (st : EngineState)
    (q : String) (dom : Option String) (k : ℤ) (d : String)
    (hmem : d ∈ searchDomains dom) (hb : st.built d = none)
    (hio : fs (filenameFor d) = .ioError) :
    (search fs st q dom k).1 = .error .dataSourceUnavailable := by
  rw [search_fst]
  rw [searchLoop_err fs (tokenize q) (searchDomains dom) st d
    (searchDomains_nodup dom) hmem hb hio]
  rfl

/-- Witness for the amended C3: a filtered search on the unreadable category. -/
theorem C3_amended_witness :
    "product" ∈ searchDomains (some "product") ∧
    fsErr (filenameFor "product") = .ioError ∧
    (search fsErr initState "q" (some "product") 10).1 =
      .error .dataSourceUnavailable :=
  ⟨by decide, rfl,
    C3_amended_error_always_propagates fsErr initState "q" (some "product") 10
      "product" (by decide) rfl rfl⟩

/-- Counterexample to claim C4 as stated: for a category whose data source is
missing, `build_index` caches nothing, so the very next search that targets it
invokes the loader adapter again (the invocation log of both the first and the
second search contains the category). -/
theorem C4_counterexample_loader_reinvoked :
    fsMiss "products.csv" = .missing ∧
    (search fsMiss initState "x" (some "product") 10).2.2 = ["product"] ∧
    (search fsMiss ((search fsMiss initState "x" (some "product") 10).2.1) "x"
      (some "product") 10).2.2 = ["product"] :=
  ⟨rfl, rfl, rfl⟩

/-- Claim C4 amended: the absent/empty outcome is not cached. For every category
whose loader yields zero records, a search targeting it invokes the loader,
leaves the category unbuilt, and a subsequent search targeting it invokes the
loader again. (A category name is a non-empty string: the empty string is
falsy at line 80's dispatch and selects the unfiltered path instead.) -/
theorem C4_amended_empty_outcome_not_cached (fs : DataDir) (st : EngineState)
    (d q₁ q₂ : String) (k₁ k₂ : ℤ)
    (hb : st.built d = none) (hl : load_domain fs d = .ok [])
    (hne : d ≠ "") :
    d ∈ (search fs st q₁ (some d) k₁).2.2 ∧
    (search fs st q₁ (some d) k₁).2.1.built d = none ∧
    d ∈ (search fs ((search fs st q₁ (some d) k₁).2.1) q₂ (some d) k₂).2.2 := by
  have h1 : search fs st q₁ (some d) k₁ = (.ok [], st, [d]) :=
    search_empty_domain hb hl hne
  have h2 : search fs st q₂ (some d) k₂ = (.ok [], st, [d]) :=
    search_empty_domain hb hl hne
  rw [h1]
  exact ⟨List.mem_singleton_self d, hb,
    by rw [h2]; exact List.mem_singleton_self d⟩

/-- Witness for the amended C4 on the all-missing corpus. -/
theorem C4_amended_witness :
    initState.built "product" = none ∧ load_domain fsMiss "product" = .ok [] ∧
    "product" ∈ (search fsMiss initState "u" (some "product") 7).2.2 :=
  ⟨rfl, rfl,
    (C4_amended_empty_outcome_not_cached fsMiss initState "product" "u" "v" 7 7
      rfl rfl (by decide)).1⟩

/-- Claim C5: for every query, category filter and `max_results`, a successful
search returns a sequence sorted by non-increasing score in which every result
has strictly positive score; the returned sequence is a Python slice of a
stable descending reordering of the hit pool, which is accumulated in category
iteration order and, per category, in record load order — so exact score ties
keep category iteration order, then original load order. -/
theorem C5_sorted_positive_stable (fs : DataDir) (st : EngineState) (q : String)
    (dom : Option String) (k : ℤ) (res : List SearchResult)
    (h : (search fs st q dom k).1 = .ok res) :
    res.Pairwise (fun a b => b.score ≤ a.score) ∧
    (∀ r ∈ res, 0 < r.score) ∧
    ∃ pool, (searchLoop fs (tokenize q) (searchDomains dom) st).1 = .ok pool ∧
      List.Perm (sortByScoreDesc pool) pool ∧
      (∀ s : ℝ, (sortByScoreDesc pool).filter (fun r => decide (r.score = s)) =
        pool.filter (fun r => decide (r.score = s))) ∧
      res = pySlice k (sortByScoreDesc pool) := by
  obtain ⟨pool, hp, hres⟩ := search_ok_elim h
  have htake : ∃ n, res = (sortByScoreDesc pool).take n := by
    rw [hres]
    unfold pySlice
    split
    · exact ⟨_, rfl⟩
    · exact ⟨_, rfl⟩
  obtain ⟨n, hn⟩ := htake
  refine ⟨?_, ?_, pool, hp, sortByScoreDesc_perm pool,
    fun s => sortByScoreDesc_filter s pool, hres⟩
  · rw [hn]
    exact (sortByScoreDesc_pairwise pool).sublist (List.take_sublist _ _)
  · intro r hr
    rw [hn] at hr
    have hmem : r ∈ sortByScoreDesc pool := List.take_subset _ _ hr
    have hpool : r ∈ pool := (sortByScoreDesc_perm pool).subset hmem
    exact searchLoop_pos fs (tokenize q) _ st pool hp r hpool

/-- Witness for C5 on the all-missing corpus. -/
theorem C5_sorted_positive_stable_witness :
    (search fsMiss initState "x" none 5).1 = .ok [] ∧
    ([] : List SearchResult).Pairwise (fun a b => b.score ≤ a.score) ∧
    (∀ r ∈ ([] : List SearchResult), 0 < r.score) := by
  have h : (search fsMiss initState "x" none 5).1 = .ok [] := by
    rw [search_fst, searchLoop_all_empty fsMiss (tokenize "x")
      (searchDomains none) initState (fun d _ => ⟨rfl, rfl⟩)]
    rfl
  exact ⟨h, (C5_sorted_positive_stable fsMiss initState "x" none 5 [] h).1,
    (C5_sorted_positive_stable fsMiss initState "x" none 5 [] h).2.1⟩

/-- Claim C6: an unfiltered search with a natural-number cap `k` returns at most
`k` results, and exactly as many results as the positive-score hit pool holds
whenever the pool size is at most `k`. -/
theorem C6_result_count (fs : DataDir) (st : EngineState) (q : String) (k : ℕ)
    (res pool : List SearchResult)
    (h : (search fs st q none (k : ℤ)).1 = .ok res)
    (hp : (searchLoop fs (tokenize q) (searchDomains none) st).1 = .ok pool) :
    res.length ≤ k ∧ (pool.length ≤ k → res.length = pool.length) := by
  obtain ⟨pool', hp', hres⟩ := search_ok_elim h
  rw [hp] at hp'
  obtain rfl : pool = pool' := Except.ok.inj hp'
  rw [hres, pySlice_ofNat, List.length_take, (sortByScoreDesc_perm pool).length_eq]
  exact ⟨min_le_left _ _, fun hk => by omega⟩

/-- Witness for C6 on the all-missing corpus. -/
theorem C6_result_count_witness :
    (search fsMiss initState "y" none (3 : ℕ)).1 = .ok [] ∧
    ([] : List SearchResult).length ≤ 3 := by
  have hp : (searchLoop fsMiss (tokenize "y") (searchDomains none)
      initState).1 = .ok [] := by
    rw [searchLoop_all_empty fsMiss (tokenize "y") (searchDomains none)
      initState (fun d _ => ⟨rfl, rfl⟩)]
  have h : (search fsMiss initState "y" none ((3 : ℕ) : ℤ)).1 = .ok [] := by
    rw [search_fst, searchLoop_all_empty fsMiss (tokenize "y")
      (searchDomains none) initState (fun d _ => ⟨rfl, rfl⟩)]
    rfl
  exact ⟨h, (C6_result_count fsMiss initState "y" 3 [] [] h hp).1⟩

/-- Claim C7: in any category, a record whose only content is exactly the
query's tokens (a non-empty token sequence) scores strictly higher than a
record containing none of the query tokens — BM25 is monotone in term
presence. -/
theorem C7_presence_monotonicity (docs : List Rec) (q : String) (A B : Rec)
    (hq : tokenize q ≠ []) (hA : A ∈ docs) (hB : B ∈ docs)
    (hAtoks : tokenize (recordText A) = tokenize q)
    (hBnone : ∀ t ∈ tokenize q, t ∉ tokenize (recordText B)) :
    (indexFor docs).score (tokenize q) (tokenize (recordText B)) <
      (indexFor docs).score (tokenize q) (tokenize (recordText A)) := by
  have hzero : (indexFor docs).score (tokenize q) (tokenize (recordText B)) = 0 :=
    BM25Index.score_eq_zero
      (fun t ht => List.count_eq_zero_of_not_mem (hBnone t ht))
  rw [hzero]
  obtain ⟨t, htq⟩ := List.exists_mem_of_ne_nil _ hq
  refine BM25Index.score_pos htq ?_ ?_
  · rw [hAtoks]
    exact List.count_pos_iff.mpr htq
  · have hmem : tokenize (recordText A) ∈ (indexFor docs).corpus :=
      List.mem_map.mpr ⟨A, hA, rfl⟩
    have ht' : t ∈ tokenize (recordText A) := by
      rw [hAtoks]
      exact htq
    exact BM25Index.df_pos_of_mem hmem ht'

/-- Witness for C7 on a two-record corpus. -/
theorem C7_presence_monotonicity_witness :
    tokenize "alpha" ≠ [] ∧
    (indexFor [[("name", "alpha")], [("name", "zzz")]]).score (tokenize "alpha")
        (tokenize (recordText [("name", "zzz")])) <
      (indexFor [[("name", "alpha")], [("name", "zzz")]]).score (tokenize "alpha")
        (tokenize (recordText [("name", "alpha")])) :=
  ⟨by decide,
    C7_presence_monotonicity [[("name", "alpha")], [("name", "zzz")]] "alpha"
      [("name", "alpha")] [("name", "zzz")] (by decide) (by decide) (by decide)
      (by decide) (by decide)⟩

/-- Claim C8: a negative `max_results` does not raise and is not a cap of zero:
by Python slice semantics the search returns the sorted positive-score pool
with its last `|m|` elements removed; in particular `max_results = -1` on a
non-empty pool returns one result fewer than the pool holds. -/
theorem C8_negative_max_results (fs : DataDir) (st : EngineState) (q : String)
    (m : ℤ) (pool : List SearchResult) (hm : m < 0)
    (hp : (searchLoop fs (tokenize q) (searchDomains none) st).1 = .ok pool) :
    (search fs st q none m).1 =
      .ok (List.dropLast^[(-m).toNat] (sortByScoreDesc pool)) ∧
    (m = -1 → 0 < pool.length →
      (List.dropLast^[(-m).toNat] (sortByScoreDesc pool)).length =
        pool.length - 1) := by
  constructor
  · rw [search_ok_of_loop hp]
    congr 1
    rw [pySlice_neg hm, dropLast_iterate]
  · intro hm1 hpl
    subst hm1
    rw [dropLast_iterate, List.length_take,
      (sortByScoreDesc_perm pool).length_eq]
    rw [show ((-(-1 : ℤ)).toNat) = 1 from rfl]
    omega

/-- Witness for C8 on the one-product corpus: pool of size one, `-1` returns
the empty list. -/
theorem C8_negative_max_results_witness :
    ((-1 : ℤ) < 0) ∧
    (searchLoop fsOne (tokenize "alpha") (searchDomains none) initState).1 =
      .ok [prodHit] ∧
    (search fsOne initState "alpha" none (-1)).1 =
      .ok (List.dropLast^[1] (sortByScoreDesc [prodHit])) := by
  have hloop : (searchLoop fsOne (tokenize "alpha") (searchDomains none)
      initState).1 = .ok [prodHit] := by
    rw [show searchDomains none = fixedDomains from rfl, loop_fsOne_all]
  exact ⟨by decide, hloop,
    (C8_negative_max_results fsOne initState "alpha" (-1) [prodHit] (by decide)
      hloop).1⟩

/-- Counterexample to claim C9 as stated: the empty string is a domain string
outside the seven fixed categories, but at line 80 it is falsy, so
`search(query, domain="")` performs an unfiltered search over all seven
categories and never consults the file `".csv"`: over `fsOne` the file `".csv"`
does not exist, yet the search returns the product hit instead of the empty
list the claim requires. -/
theorem C9_counterexample_empty_domain :
    "" ∉ fixedDomains ∧ fsOne ("" ++ ".csv") = .missing ∧
    (search fsOne initState "alpha" (some "") 10).1 = .ok [prodHit] ∧
    (search fsOne initState "alpha" (some "") 10).1 ≠ .ok [] := by
  have heval : (search fsOne initState "alpha" (some "") 10).1 = .ok [prodHit] := by
    rw [search_fst, show searchDomains (some "") = fixedDomains from rfl,
      loop_fsOne_all]
    show Except.ok (pySlice 10 (sortByScoreDesc [prodHit])) = _
    rw [show sortByScoreDesc [prodHit] = [prodHit] from rfl]
    rw [show pySlice (10 : ℤ) [prodHit] = [prodHit] from rfl]
  refine ⟨by decide, rfl, heval, ?_⟩
  rw [heval]
  simp

/-- Claim C9 amended: for every NON-EMPTY domain string outside the seven fixed
categories, `search` does not raise: the engine consults the file `"<d>.csv"`;
if it is missing the result is the empty list, and if it holds rows the result
is the ranked positive-score hits built from exactly those rows. (The empty
string is falsy at line 80's dispatch and instead triggers an unfiltered
search over all seven categories, never consulting `".csv"`.) -/
theorem C9_unknown_domain (fs : DataDir) (st : EngineState) (q : String) (k : ℤ)
    (d : String) (hd : d ∉ fixedDomains) (hne : d ≠ "")
    (hb : st.built d = none) :
    filenameFor d = d ++ ".csv" ∧
    (fs (d ++ ".csv") = .missing → (search fs st q (some d) k).1 = .ok []) ∧
    (∀ rs, fs (d ++ ".csv") = .rows rs →
      (search fs st q (some d) k).1 =
        .ok (pySlice k (sortByScoreDesc
          (if rs.isEmpty then [] else mkHits d rs (tokenize q))))) := by
  have hf := filenameFor_not_fixed hd
  refine ⟨hf, ?_, ?_⟩
  · intro hm
    have hl : load_domain fs d = .ok [] := by
      unfold load_domain
      rw [hf, hm]
    rw [search_empty_domain hb hl hne]
  · intro rs hr
    have hl : load_domain fs d = .ok rs := by
      unfold load_domain
      rw [hf, hr]
    cases hre : rs.isEmpty with
    | true =>
      obtain rfl : rs = [] := List.isEmpty_iff.mp hre
      rw [search_empty_domain hb hl hne]
      simp [pySlice_nil, sortByScoreDesc]
    | false =>
      have hloop : searchLoop fs (tokenize q) [d] st =
          (.ok (mkHits d rs (tokenize q)), setBuilt st d rs, [d]) := by
        rw [searchLoop_cons_none_ok hb hl]
        simp only [hre, Bool.false_eq_true, if_false]
        rw [searchLoop_nil]
        simp only [Except.map, List.append_nil]
        rw [domainHits_built
          (show (setBuilt st d rs).built d = some rs by simp [setBuilt]) hre]
      rw [search_fst, searchDomains_filter hne, hloop]
      simp [Except.map, hre]

/-- Witness for the amended C9 at the unknown domain `"extra"` over the
all-missing data directory. -/
theorem C9_unknown_domain_witness :
    "extra" ∉ fixedDomains ∧ filenameFor "extra" = "extra" ++ ".csv" ∧
    (search fsMiss initState "q" (some "extra") 10).1 = .ok [] := by
  have h := C9_unknown_domain fsMiss initState "q" 10 "extra" (by decide)
    (by decide) rfl
  exact ⟨by decide, h.1, h.2.1 rfl⟩

/-- Claim C10: the checklist of a successfully generated design system has at
most 5 entries — the ux search is capped at 5 results, so the composer's scan
of up to the top 10 ux results never examines more than 5 — and every entry
requires both a truthy guideline-name field and a truthy rule field. -/
theorem C10_checklist_capped (σ : List String → List String) (fs : DataDir)
    (st : EngineState) (q pn : String) (out : DesignSystem) (st' : EngineState)
    (h : design_system_generator σ fs st q pn = .ok (out, st')) :
    out.checklist.length ≤ 5 ∧ ∀ e ∈ out.checklist, e.item ≠ "" ∧ e.rule ≠ "" := by
  unfold design_system_generator at h
  rcases hc : dsgCore fs st q with e | p
  · rw [hc] at h
    exact Except.noConfusion h
  · rw [hc] at h
    simp only [Except.map] at h
    have ha : assemble σ q pn p.1 = out := congrArg Prod.fst (Except.ok.inj h)
    subst ha
    have hux : p.1.ux.length ≤ 5 := dsgCore_ux_length hc
    constructor
    · show (generate_checklist p.1.ux).length ≤ 5
      exact le_trans (generate_checklist_length _) hux
    · intro e he
      exact generate_checklist_fields he

/-- Witness for C10 on the all-missing corpus. -/
theorem C10_checklist_capped_witness :
    design_system_generator List.dedup fsMiss initState "z" "P" =
      .ok (assemble List.dedup "z" "P" emptyBundle, initState) ∧
    (assemble List.dedup "z" "P" emptyBundle).checklist.length ≤ 5 :=
  ⟨dsg_fsMiss List.dedup "z" "P",
    (C10_checklist_capped List.dedup fsMiss initState "z" "P" _ _
      (dsg_fsMiss List.dedup "z" "P")).1⟩

end DesignSearch
